import Mathlib

/-!
Shallow embedding of the process-supervisor core of the repository
(`Guardian` class and its types). Each Guardian method is translated to a
pure function `GState → inputs → GState × List Effect`, where `Effect`
records event emissions (`this.emit(...)`), scheduled restarts
(`setTimeout(() => this.start(), delay)`), stdin writes, forced kills,
console warnings, and plugin `onLoad` invocations, in program order.
Asynchronous inputs (spawn outcome, stdin-write failure, the exit-future /
timeout race, `onLoad` raising) are passed as explicit parameters.
-/

namespace Guardian

/-- `GuardianStatus` from types.ts. -/
inductive GuardianStatus
  | OFFLINE
  | STARTING
  | ONLINE
  | STOPPING
  | CRASHED
deriving DecidableEq, Repr

/-- `ExitEvent` from types.ts; `code : number | null` becomes `Option Int`. -/
structure ExitEvent where
  code : Option Int
  isCrash : Bool
  reason : String
deriving DecidableEq, Repr

/-- `ServerConfig` from types.ts (the fields `Guardian` reads). -/
structure ServerConfig where
  jarPath : String
  javaBin : String
  jvmOptions : List String
  programArgs : List String
  cwd : String
deriving DecidableEq, Repr

/-- `GuardianConfig` from types.ts (restart policy; `maxRetries`,
`retryDelayMs` are non-negative integers per the data model). -/
structure GuardianConfig where
  autoRestart : Bool
  maxRetries : Nat
  retryDelayMs : Nat
deriving DecidableEq, Repr

/-- The slice of `Config` (Config.ts `AppConfigData`) that `Guardian` reads.
The supervisor treats it as an immutable snapshot; `loadSync()` is modelled
by this snapshot being a parameter of `start`. -/
structure AppConfig where
  server : ServerConfig
  guardian : GuardianConfig
deriving DecidableEq, Repr

/-- A spawned Bun subprocess handle as `Guardian` observes it:
`pid` (possibly undefined), stdin availability, and its `killed` flag. -/
structure ProcHandle where
  pid : Option Nat
  stdinOpen : Bool
  killed : Bool
deriving DecidableEq, Repr

/-- `GuardianPlugin` identity data from types.ts. -/
structure Plugin where
  name : String
  version : String
deriving DecidableEq, Repr

/-- The event tags `Guardian` emits, with payloads. -/
inductive Ev
  | status (s : GuardianStatus)
  | log (m : String)
  | error (m : String)
  | pid (n : Nat)
  | stopped (e : ExitEvent)
  | output (line : String)
  | errorLog (line : String)
deriving DecidableEq, Repr

/-- Observable side effects of a Guardian method, in program order. -/
inductive Effect
  | emit (e : Ev)
  | spawnProc (cmd : List String)
  | writeStdin (data : String)
  | killProc
  | scheduleStart (delayMs : Nat)
  | consoleWarn (m : String)
  | pluginOnLoad (name : String)
deriving DecidableEq, Repr

/-- The mutable fields of the `Guardian` class. -/
structure GState where
  process : Option ProcHandle
  status : GuardianStatus
  crashCount : Nat
  intentionalStop : Bool
  plugins : List String
deriving DecidableEq, Repr

/-- `Guardian.setStatus`: update `_status` and emit a `status` event only on
an actual change. -/
def setStatus (st : GState) (s : GuardianStatus) : GState × List Effect :=
  if st.status ≠ s then ({ st with status := s }, [Effect.emit (Ev.status s)])
  else (st, [])

/-- `Guardian.handleCrashRecovery`. -/
def handleCrashRecovery (cfg : GuardianConfig) (st : GState) :
    GState × List Effect :=
  if cfg.autoRestart ∧ st.crashCount < cfg.maxRetries then
    ({ st with crashCount := st.crashCount + 1 },
      [Effect.emit (Ev.log ("Server crashed. Restarting in " ++
          toString cfg.retryDelayMs ++ "ms (Attempt " ++
          toString (st.crashCount + 1) ++ "/" ++
          toString cfg.maxRetries ++ ")")),
        Effect.scheduleStart cfg.retryDelayMs])
  else
    let r := setStatus st GuardianStatus.OFFLINE
    (r.1,
      Effect.emit (Ev.error "Max retries reached or auto-restart disabled.")
        :: r.2)

/-- `Guardian.handleExit` with exit `code : number | null`. -/
def handleExit (cfg : GuardianConfig) (st : GState) (code : Option Int) :
    GState × List Effect :=
  if st.status = GuardianStatus.OFFLINE ∧ st.process = none then (st, [])
  else
    let st1 : GState := { st with process := none }
    let cls : Bool × String :=
      if st1.intentionalStop then (false, "Manual Stop")
      else if code = some 0 ∨ code = some 130 ∨ code = some 143 then
        (false, "Normal Exit")
      else
        (true, "Crash (Exit Code " ++
          (match code with
            | some c => toString c
            | none => "Signal") ++ ")")
    let ev : ExitEvent := { code := code, isCrash := cls.1, reason := cls.2 }
    if cls.1 then
      let r1 := setStatus st1 GuardianStatus.CRASHED
      let r2 := handleCrashRecovery cfg r1.1
      (r2.1, Effect.emit (Ev.stopped ev) :: (r1.2 ++ r2.2))
    else
      let r1 := setStatus st1 GuardianStatus.OFFLINE
      ({ r1.1 with crashCount := 0 }, Effect.emit (Ev.stopped ev) :: r1.2)

/-- `path.resolve(srv.cwd, srv.jarPath)`: modelled as path joining; no claim
depends on path normalisation. -/
def pathResolve (base p : String) : String := base ++ "/" ++ p

/-- `Guardian.buildSpawnCommand`. -/
def buildSpawnCommand (srv : ServerConfig) : List String :=
  [srv.javaBin] ++ srv.jvmOptions ++
    ["-jar", pathResolve srv.cwd srv.jarPath] ++ srv.programArgs

/-- `cmd.join(" ")`. -/
def joinSpace (l : List String) : String := String.intercalate " " l

/-- `Guardian.start` up to the point where it suspends on `process.exited`
(that continuation is `handleExit`, applied separately in run models).
`loadSync()` re-reads the configuration; the snapshot it yields is the `cfg`
parameter. `spawnRes` is the outcome of `spawn`: a handle, or the thrown
error's text. Stream pumping (`processOutput`) is modelled by `lineLoop`
below. -/
def start (cfg : AppConfig) (st : GState)
    (spawnRes : Except String ProcHandle) : GState × List Effect :=
  if st.status = GuardianStatus.ONLINE ∨ st.status = GuardianStatus.STARTING
  then (st, [])
  else
    let st1 : GState := { st with intentionalStop := false }
    let r1 := setStatus st1 GuardianStatus.STARTING
    let cmd := buildSpawnCommand cfg.server
    let logE := Effect.emit (Ev.log ("Starting server with: " ++ joinSpace cmd))
    match spawnRes with
    | Except.ok p =>
      let pidEs := match p.pid with
        | some n => [Effect.emit (Ev.pid n)]
        | none => []
      let st2 : GState := { r1.1 with process := some p }
      let r3 := setStatus st2 GuardianStatus.ONLINE
      (r3.1, r1.2 ++ [logE, Effect.spawnProc cmd] ++ pidEs ++ r3.2)
    | Except.error e =>
      let r2 := setStatus r1.1 GuardianStatus.OFFLINE
      ({ r2.1 with process := none },
        r1.2 ++ [logE, Effect.emit (Ev.error ("Failed to spawn process: " ++ e))]
          ++ r2.2)

/-- Truthiness of `this.process?.stdin`. -/
def procStdin (st : GState) : Bool :=
  match st.process with
  | some p => p.stdinOpen
  | none => false

/-- `Guardian.write`. `writeRes = some e` models `stdin.write`/`flush`
throwing `e`; `none` models a successful write. -/
def write (st : GState) (command : String) (writeRes : Option String) :
    GState × List Effect :=
  if st.status ≠ GuardianStatus.ONLINE ∨ procStdin st = false then (st, [])
  else
    match writeRes with
    | none => (st, [Effect.writeStdin (command ++ "\n")])
    | some e =>
      (st, [Effect.emit (Ev.error ("Failed to write to stdin: " ++ e))])

/-- `Guardian.kill`: forced termination, guarded by `!this.process.killed`. -/
def kill (st : GState) : GState × List Effect :=
  match st.process with
  | some p => if p.killed = false then (st, [Effect.killProc]) else (st, [])
  | none => (st, [])

/-- The graceful-shutdown deadline (`setTimeout(..., 10000)`). -/
def STOP_TIMEOUT_MS : Nat := 10000

/-- The `Promise.race` between `process.exited` and the timer, resolved from
the time `exitTimeMs` at which the exit future settles (`none` = never):
the exit future wins exactly when it resolves before the 10-second timer. -/
def exitWinsRace (exitTimeMs : Option Nat) : Bool :=
  match exitTimeMs with
  | some t => decide (t < STOP_TIMEOUT_MS)
  | none => false

/-- `Guardian.stop`. On a timeout the hung-server log is emitted and `kill()`
is invoked; either way the method resolves normally. -/
def stop (st : GState) (exitTimeMs : Option Nat) : GState × List Effect :=
  if st.status = GuardianStatus.OFFLINE ∨ st.process = none then (st, [])
  else
    let st1 : GState := { st with intentionalStop := true }
    let r1 := setStatus st1 GuardianStatus.STOPPING
    let lg := Effect.emit (Ev.log "Stopping server gracefully...")
    let rw := write r1.1 "stop" none
    if exitWinsRace exitTimeMs then
      (rw.1, r1.2 ++ [lg] ++ rw.2)
    else
      let rk := kill rw.1
      (rk.1, r1.2 ++ [lg] ++ rw.2 ++
        [Effect.emit (Ev.log "Server hung, forcing kill (SIGKILL)...")] ++ rk.2)

/-- `Guardian.use`. `loadRes = some e` models `plugin.onLoad` throwing `e`;
`none` models a normal return. -/
def use (st : GState) (p : Plugin) (loadRes : Option String) :
    GState × List Effect :=
  if p.name ∈ st.plugins then
    (st, [Effect.consoleWarn ("Plugin " ++ p.name ++ " ya está registrado.")])
  else
    match loadRes with
    | none =>
      ({ st with plugins := st.plugins ++ [p.name] },
        [Effect.pluginOnLoad p.name,
          Effect.emit (Ev.log ("Plugin loaded: " ++ p.name ++ " v" ++ p.version))])
    | some e =>
      (st, [Effect.pluginOnLoad p.name,
        Effect.emit (Ev.error ("Error loading plugin " ++ p.name ++ ": " ++ e))])

/-- The `stopped`-event payloads contained in an effect list. -/
def stoppedEvents (es : List Effect) : List ExitEvent :=
  es.filterMap fun e =>
    match e with
    | Effect.emit (Ev.stopped x) => some x
    | _ => none

/-- Number of scheduled restarts in an effect list. -/
def countRestarts (es : List Effect) : Nat :=
  es.countP fun e =>
    match e with
    | Effect.scheduleStart _ => true
    | _ => false

/-- Number of `error` events in an effect list. -/
def countErrors (es : List Effect) : Nat :=
  es.countP fun e =>
    match e with
    | Effect.emit (Ev.error _) => true
    | _ => false

/-- A process handle as spawned successfully (pid 1, stdin piped, alive). -/
def okHandle : ProcHandle := ⟨some 1, true, false⟩

/-- An ONLINE supervisor state with crash counter `k` and no plugins. -/
def onlineState (k : Nat) : GState :=
  ⟨some okHandle, GuardianStatus.ONLINE, k, false, []⟩

lemma setStatus_fst_status (st : GState) (s : GuardianStatus) :
    (setStatus st s).1.status = s := by
  unfold setStatus
  split <;> simp_all

lemma setStatus_fst_process (st : GState) (s : GuardianStatus) :
    (setStatus st s).1.process = st.process := by
  unfold setStatus
  split <;> rfl

lemma setStatus_fst_crashCount (st : GState) (s : GuardianStatus) :
    (setStatus st s).1.crashCount = st.crashCount := by
  unfold setStatus
  split <;> rfl

lemma setStatus_fst_intentionalStop (st : GState) (s : GuardianStatus) :
    (setStatus st s).1.intentionalStop = st.intentionalStop := by
  unfold setStatus
  split <;> rfl

lemma setStatus_snd (st : GState) (s : GuardianStatus) :
    (setStatus st s).2 = [] ∨ (setStatus st s).2 = [Effect.emit (Ev.status s)] := by
  unfold setStatus
  split <;> simp

@[simp] lemma stoppedEvents_nil : stoppedEvents [] = [] := rfl

@[simp] lemma stoppedEvents_append (a b : List Effect) :
    stoppedEvents (a ++ b) = stoppedEvents a ++ stoppedEvents b := by
  simp [stoppedEvents]

@[simp] lemma stoppedEvents_cons_stopped (x : ExitEvent) (es : List Effect) :
    stoppedEvents (Effect.emit (Ev.stopped x) :: es) = x :: stoppedEvents es := by
  simp [stoppedEvents]

@[simp] lemma stoppedEvents_cons_status (s : GuardianStatus) (es : List Effect) :
    stoppedEvents (Effect.emit (Ev.status s) :: es) = stoppedEvents es := by
  simp [stoppedEvents]

@[simp] lemma stoppedEvents_cons_log (m : String) (es : List Effect) :
    stoppedEvents (Effect.emit (Ev.log m) :: es) = stoppedEvents es := by
  simp [stoppedEvents]

@[simp] lemma stoppedEvents_cons_error (m : String) (es : List Effect) :
    stoppedEvents (Effect.emit (Ev.error m) :: es) = stoppedEvents es := by
  simp [stoppedEvents]

@[simp] lemma stoppedEvents_cons_schedule (d : Nat) (es : List Effect) :
    stoppedEvents (Effect.scheduleStart d :: es) = stoppedEvents es := by
  simp [stoppedEvents]

@[simp] lemma stoppedEvents_setStatus (st : GState) (s : GuardianStatus) :
    stoppedEvents (setStatus st s).2 = [] := by
  rcases setStatus_snd st s with h | h <;> simp [h]

@[simp] lemma stoppedEvents_handleCrashRecovery (cfg : GuardianConfig)
    (st : GState) :
    stoppedEvents (handleCrashRecovery cfg st).2 = [] := by
  unfold handleCrashRecovery
  split
  · simp
  · rcases setStatus_snd st GuardianStatus.OFFLINE with h | h <;> simp [h]

/-- C1: for every termination actually handled by `handleExit` (not filtered
by the double-processing guard) with a numeric exit code `c`: if the
intentional-stop flag is set, exactly one `stopped` event is emitted, with
`isCrash = false` and reason `"Manual Stop"`; otherwise if `c` is 0, 130 or
143, the event has `isCrash = false` and reason `"Normal Exit"`; otherwise it
has `isCrash = true` and a reason string containing the exit code. -/
theorem handleExit_classification (cfg : GuardianConfig) (st : GState)
    (c : Int) (hg : ¬(st.status = GuardianStatus.OFFLINE ∧ st.process = none)) :
    (st.intentionalStop = true →
      stoppedEvents (handleExit cfg st (some c)).2 =
        [{ code := some c, isCrash := false, reason := "Manual Stop" }]) ∧
    (st.intentionalStop = false → (c = 0 ∨ c = 130 ∨ c = 143) →
      stoppedEvents (handleExit cfg st (some c)).2 =
        [{ code := some c, isCrash := false, reason := "Normal Exit" }]) ∧
    (st.intentionalStop = false → ¬(c = 0 ∨ c = 130 ∨ c = 143) →
      ∃ pre suf,
        stoppedEvents (handleExit cfg st (some c)).2 =
          [{ code := some c, isCrash := true,
             reason := pre ++ toString c ++ suf }]) := by
  obtain ⟨pr, stt, cc, istop, plg⟩ := st
  refine ⟨fun hstop => ?_, fun hstop hcode => ?_, fun hstop hcode => ?_⟩
  · simp only [] at hstop
    subst hstop
    simp [handleExit, hg]
  · simp only [] at hstop
    subst hstop
    rcases hcode with h | h | h <;> subst h <;> simp [handleExit, hg]
  · simp only [] at hstop
    subst hstop
    refine ⟨"Crash (Exit Code ", ")", ?_⟩
    simp [handleExit, hg, hcode]

/-- Witness for C1: a concrete non-intentional termination with exit code 1
is classified as a crash whose reason contains `"1"`. -/
theorem handleExit_classification_witness :
    ∃ pre suf,
      stoppedEvents (handleExit ⟨true, 3, 50⟩ (onlineState 0) (some 1)).2 =
        [{ code := some 1, isCrash := true,
           reason := pre ++ toString (1 : Int) ++ suf }] := by
  exact (handleExit_classification ⟨true, 3, 50⟩ (onlineState 0) 1
    (by simp [onlineState])).2.2 rfl (by decide)

/-- C8: every termination handled by `handleExit` and classified as not a
crash (the intentional-stop flag is set, or the exit code is on the
0/130/143 allow-list) resets the crash counter to 0, whatever the restart
policy and the previous counter value. -/
theorem handleExit_clean_resets_counter (cfg : GuardianConfig) (st : GState)
    (code : Option Int)
    (hg : ¬(st.status = GuardianStatus.OFFLINE ∧ st.process = none))
    (hclean : st.intentionalStop = true ∨
      code = some 0 ∨ code = some 130 ∨ code = some 143) :
    (handleExit cfg st code).1.crashCount = 0 := by
  obtain ⟨pr, stt, cc, istop, plg⟩ := st
  rcases hclean with hstop | hcode
  · simp only [] at hstop
    subst hstop
    simp [handleExit, hg]
  · by_cases hstop : istop = true
    · subst hstop
      simp [handleExit, hg]
    · have hs : istop = false := by
        cases istop
        · rfl
        · exact absurd rfl hstop
      subst hs
      rcases hcode with h | h | h <;> subst h <;> simp [handleExit, hg]

/-- Witness for C8: a crash counter of 5 is reset to 0 by a clean exit with
code 0 even under a disabled restart policy. -/
theorem handleExit_clean_resets_counter_witness :
    (handleExit ⟨false, 0, 0⟩
      ⟨some okHandle, GuardianStatus.ONLINE, 5, false, []⟩
      (some 0)).1.crashCount = 0 :=
  handleExit_clean_resets_counter ⟨false, 0, 0⟩
    ⟨some okHandle, GuardianStatus.ONLINE, 5, false, []⟩ (some 0)
    (by simp) (by simp)

/-- C3: on a crash classification, if `autoRestart` is set and the crash
counter is strictly below `maxRetries`, the counter is incremented, a log
event describing the scheduled attempt number is emitted and a restart is
scheduled after `retryDelayMs`; otherwise the error event
`"Max retries reached or auto-restart disabled."` is emitted, no restart is
scheduled, the counter is unchanged and the state settles at `OFFLINE`. -/
theorem handleCrashRecovery_spec (cfg : GuardianConfig) (st : GState) :
    (cfg.autoRestart = true → st.crashCount < cfg.maxRetries →
      handleCrashRecovery cfg st =
        ({ st with crashCount := st.crashCount + 1 },
          [Effect.emit (Ev.log ("Server crashed. Restarting in " ++
              toString cfg.retryDelayMs ++ "ms (Attempt " ++
              toString (st.crashCount + 1) ++ "/" ++
              toString cfg.maxRetries ++ ")")),
            Effect.scheduleStart cfg.retryDelayMs])) ∧
    (¬(cfg.autoRestart = true ∧ st.crashCount < cfg.maxRetries) →
      (handleCrashRecovery cfg st).1.status = GuardianStatus.OFFLINE ∧
      (handleCrashRecovery cfg st).1.crashCount = st.crashCount ∧
      countRestarts (handleCrashRecovery cfg st).2 = 0 ∧
      Effect.emit (Ev.error "Max retries reached or auto-restart disabled.")
        ∈ (handleCrashRecovery cfg st).2) := by
  constructor
  · intro hauto hlt
    unfold handleCrashRecovery
    rw [if_pos ⟨by simp [hauto], hlt⟩]
  · intro hno
    unfold handleCrashRecovery
    rw [if_neg (by simpa using hno)]
    refine ⟨setStatus_fst_status st GuardianStatus.OFFLINE,
      setStatus_fst_crashCount st GuardianStatus.OFFLINE, ?_, by simp⟩
    rcases setStatus_snd st GuardianStatus.OFFLINE with h | h <;>
      simp [h, countRestarts]

/-- Witness for C3: both branches at concrete states — with retries left a
restart is scheduled and the counter goes from 0 to 1; with retries
exhausted the error event is emitted and no restart is scheduled. -/
theorem handleCrashRecovery_spec_witness :
    (handleCrashRecovery ⟨true, 2, 50⟩
      ⟨none, GuardianStatus.CRASHED, 0, false, []⟩ =
      (⟨none, GuardianStatus.CRASHED, 1, false, []⟩,
        [Effect.emit (Ev.log ("Server crashed. Restarting in " ++
            toString (50 : Nat) ++ "ms (Attempt " ++ toString (0 + 1) ++
            "/" ++ toString (2 : Nat) ++ ")")),
          Effect.scheduleStart 50])) ∧
    countRestarts (handleCrashRecovery ⟨true, 2, 50⟩
      ⟨none, GuardianStatus.CRASHED, 2, false, []⟩).2 = 0 :=
  ⟨(handleCrashRecovery_spec ⟨true, 2, 50⟩
      ⟨none, GuardianStatus.CRASHED, 0, false, []⟩).1 rfl (by decide),
    ((handleCrashRecovery_spec ⟨true, 2, 50⟩
      ⟨none, GuardianStatus.CRASHED, 2, false, []⟩).2 (by simp)).2.2.1⟩

/-- Whitespace as `.trim()` strips it (space, tab, carriage return, line
feed). -/
def isWS (c : Char) : Bool := c.isWhitespace

/-- JS `String.prototype.trim`: drop whitespace from both ends. -/
def trimChars (l : List Char) : List Char :=
  ((l.dropWhile isWS).reverse.dropWhile isWS).reverse

/-- `if (line) this.emit("output", line)`: emit the trimmed line only when
it is non-empty. -/
def maybeEmit (t : List Char) (rest : List (List Char)) : List (List Char) :=
  if t.isEmpty then rest else t :: rest

/-- The `while ((lineEndIndex = buffer.indexOf("\n")) !== -1)` loop of
`Guardian.processOutput`, scanning the buffer left to right: `acc` holds the
characters read since the last terminator; at each `"\n"` the accumulated
segment is trimmed and emitted when non-empty; the characters after the last
terminator are the new buffer. Returns (emitted lines, remaining buffer). -/
def lineLoop : List Char → List Char → List (List Char) × List Char
  | acc, [] => ([], acc)
  | acc, c :: cs =>
    if c = '\n' then
      (maybeEmit (trimChars acc) (lineLoop [] cs).1, (lineLoop [] cs).2)
    else lineLoop (acc ++ [c]) cs

/-- One `reader.read()` iteration: `buffer += decoder.decode(value)` then
the line-extraction loop over the whole buffer. The decoder's streaming mode
makes byte chunks concatenate as text, so chunks are modelled post-decoding
as character lists. -/
def feedChunk (buf chunk : List Char) : List (List Char) × List Char :=
  lineLoop [] (buf ++ chunk)

/-- The whole read loop over a sequence of chunks, threading the buffer. -/
def feedAll : List Char → List (List Char) → List (List Char) × List Char
  | buf, [] => ([], buf)
  | buf, ch :: rest =>
    ((feedChunk buf ch).1 ++ (feedAll (feedChunk buf ch).2 rest).1,
      (feedAll (feedChunk buf ch).2 rest).2)

/-- `Guardian.processOutput` end to end: pump all chunks from an empty
buffer, then flush the trimmed remainder if non-empty (`if (buffer.trim())
this.emit("output", buffer.trim())`). -/
def processStream (chunks : List (List Char)) : List (List Char) :=
  (feedAll [] chunks).1 ++
    (if (trimChars (feedAll [] chunks).2).isEmpty then []
      else [trimChars (feedAll [] chunks).2])

lemma maybeEmit_append (t : List Char) (a b : List (List Char)) :
    maybeEmit t (a ++ b) = maybeEmit t a ++ b := by
  unfold maybeEmit
  split <;> simp

lemma lineLoop_append (a x y : List Char) :
    lineLoop a (x ++ y) =
      ((lineLoop a x).1 ++ (lineLoop (lineLoop a x).2 y).1,
        (lineLoop (lineLoop a x).2 y).2) := by
  induction x generalizing a with
  | nil => simp [lineLoop]
  | cons c x' ih =>
    by_cases h : c = '\n'
    · subst h
      simp [lineLoop, ih, maybeEmit_append]
    · simp [lineLoop, h, ih]

lemma lineLoop_no_nl (a s : List Char) (h : '\n' ∉ s) :
    lineLoop a s = ([], a ++ s) := by
  induction s generalizing a with
  | nil => simp [lineLoop]
  | cons c cs ih =>
    have hc : c ≠ '\n' := by
      rintro rfl
      exact h (List.mem_cons_self _ _)
    have hcs : '\n' ∉ cs := fun hm => h (List.mem_cons_of_mem _ hm)
    simp [lineLoop, hc, ih _ hcs]

lemma lineLoop_snd_no_nl (a s : List Char) (h : '\n' ∉ a) :
    '\n' ∉ (lineLoop a s).2 := by
  induction s generalizing a with
  | nil => simpa [lineLoop] using h
  | cons c cs ih =>
    by_cases hc : c = '\n'
    · subst hc
      simpa [lineLoop] using ih [] (by simp)
    · have h2 : '\n' ∉ a ++ [c] := by
        intro hm
        rcases List.mem_append.mp hm with h1 | h1
        · exact h h1
        · simp at h1
          exact hc h1.symm
      simpa [lineLoop, hc] using ih _ h2

lemma lineLoop_buffer (b z : List Char) (h : '\n' ∉ b) :
    lineLoop [] (b ++ z) = lineLoop b z := by
  rw [lineLoop_append, lineLoop_no_nl [] b h]
  simp

lemma feedAll_join (buf : List Char) (chunks : List (List Char))
    (h : '\n' ∉ buf) :
    feedAll buf chunks = lineLoop [] (buf ++ chunks.flatten) := by
  induction chunks generalizing buf with
  | nil => simp [feedAll, lineLoop_no_nl [] buf h]
  | cons ch rest ih =>
    have h2 : '\n' ∉ (feedChunk buf ch).2 :=
      lineLoop_snd_no_nl [] _ (by simp)
    simp only [feedAll]
    rw [ih _ h2, lineLoop_buffer _ _ h2]
    simp only [feedChunk, List.nil_append, List.flatten_cons,
      ← List.append_assoc]
    rw [lineLoop_append [] (buf ++ ch) rest.flatten]

lemma feedAll_single (j : List Char) : feedAll [] [j] = lineLoop [] j := by
  simp [feedAll, feedChunk]

lemma dropWhile_head_false (p : Char → Bool) (l : List Char) (c : Char)
    (t : List Char) (e : List.dropWhile p l = c :: t) : p c = false := by
  induction l with
  | nil => cases e
  | cons x xs ih =>
    by_cases hp : p x = true
    · rw [List.dropWhile_cons_of_pos hp] at e
      exact ih e
    · rw [List.dropWhile_cons_of_neg (by simpa using hp)] at e
      injection e with e1 e2
      subst e1
      simpa using hp

lemma mem_dropWhile_snoc (p : Char → Bool) (l : List Char) (c : Char)
    (hc : p c = false) : c ∈ List.dropWhile p (l ++ [c]) := by
  induction l with
  | nil => simp [List.dropWhile, hc]
  | cons x xs ih =>
    by_cases hp : p x = true
    · rw [List.cons_append, List.dropWhile_cons_of_pos hp]
      exact ih
    · rw [List.cons_append, List.dropWhile_cons_of_neg (by simpa using hp)]
      simp

lemma trim_has_non_ws (x : List Char) :
    trimChars x = [] ∨ ∃ c ∈ trimChars x, isWS c = false := by
  cases hd : List.dropWhile isWS x with
  | nil =>
    left
    simp [trimChars, hd]
  | cons h t =>
    right
    have hw : isWS h = false := dropWhile_head_false isWS x h t hd
    refine ⟨h, ?_, hw⟩
    unfold trimChars
    rw [hd]
    rw [List.mem_reverse]
    have : (h :: t).reverse = t.reverse ++ [h] := by simp
    rw [this]
    exact mem_dropWhile_snoc isWS t.reverse h hw

lemma lineLoop_fst_mem (s : List Char) :
    ∀ (a l : List Char), l ∈ (lineLoop a s).1 → l ≠ [] ∧ ∃ z, l = trimChars z := by
  induction s with
  | nil =>
    intro a l hl
    simp [lineLoop] at hl
  | cons c cs ih =>
    intro a l hl
    by_cases hc : c = '\n'
    · subst hc
      have hl' : l ∈ maybeEmit (trimChars a) (lineLoop [] cs).1 := by
        simpa [lineLoop] using hl
      by_cases he : (trimChars a).isEmpty = true
      · unfold maybeEmit at hl'
        rw [if_pos he] at hl'
        exact ih [] l hl'
      · unfold maybeEmit at hl'
        rw [if_neg he] at hl'
        rcases List.mem_cons.mp hl' with h1 | h1
        · subst h1
          refine ⟨?_, a, rfl⟩
          intro hnil
          rw [hnil] at he
          simp at he
        · exact ih [] l h1
    · have hl' : l ∈ (lineLoop (a ++ [c]) cs).1 := by
        simpa [lineLoop, hc] using hl
      exact ih (a ++ [c]) l hl'

lemma feedAll_fst_mem (chunks : List (List Char)) :
    ∀ (buf l : List Char), l ∈ (feedAll buf chunks).1 →
      l ≠ [] ∧ ∃ z, l = trimChars z := by
  induction chunks with
  | nil =>
    intro buf l hl
    simp [feedAll] at hl
  | cons ch rest ih =>
    intro buf l hl
    simp only [feedAll] at hl
    rcases List.mem_append.mp hl with h1 | h1
    · exact lineLoop_fst_mem _ _ _ h1
    · exact ih _ _ h1

lemma processStream_mem (chunks : List (List Char)) (l : List Char)
    (h : l ∈ processStream chunks) : l ≠ [] ∧ ∃ z, l = trimChars z := by
  unfold processStream at h
  rcases List.mem_append.mp h with h1 | h1
  · exact feedAll_fst_mem _ _ _ h1
  · split at h1
    · cases h1
    · rcases List.mem_singleton.mp h1 with rfl
      refine ⟨?_, (feedAll [] chunks).2, rfl⟩
      intro hnil
      simp [hnil] at *

/-- C4: the line reassembler is chunking-invariant — feeding any sequence of
chunks (decoded text, arbitrary boundaries) through the
`Guardian.processOutput` buffer loop, including the end-of-stream flush of
the unterminated fragment, emits exactly the same ordered lines as feeding
the concatenation as one chunk — and every emitted line is non-empty and
contains a non-whitespace character (whitespace-only lines are never
emitted). -/
theorem processOutput_chunk_invariant (chunks : List (List Char)) :
    processStream chunks = processStream [chunks.flatten] ∧
    ∀ l ∈ processStream chunks, l ≠ [] ∧ ∃ c ∈ l, isWS c = false := by
  constructor
  · unfold processStream
    rw [feedAll_join [] chunks (by simp), feedAll_single]
    simp
  · intro l hl
    obtain ⟨hne, z, rfl⟩ := processStream_mem chunks l hl
    rcases trim_has_non_ws z with h | h
    · exact absurd h hne
    · exact ⟨hne, h⟩

/-- Witness for C4, the spec's literal scenario: chunks `"hel"`, `"lo wor"`,
`"ld\n"` produce exactly the single line `"hello world"`, which is non-empty
and not whitespace-only. -/
theorem processOutput_chunk_invariant_witness :
    (['h', 'e', 'l', 'l', 'o', ' ', 'w', 'o', 'r', 'l', 'd'] : List Char) ∈
      processStream [['h', 'e', 'l'], ['l', 'o', ' ', 'w', 'o', 'r'],
        ['l', 'd', '\n']] ∧
    (['h', 'e', 'l', 'l', 'o', ' ', 'w', 'o', 'r', 'l', 'd'] : List Char) ≠ [] ∧
    ∃ c ∈ (['h', 'e', 'l', 'l', 'o', ' ', 'w', 'o', 'r', 'l', 'd'] : List Char),
      isWS c = false := by
  have hm : (['h', 'e', 'l', 'l', 'o', ' ', 'w', 'o', 'r', 'l', 'd'] : List Char) ∈
      processStream [['h', 'e', 'l'], ['l', 'o', ' ', 'w', 'o', 'r'],
        ['l', 'd', '\n']] := by decide
  exact ⟨hm, (processOutput_chunk_invariant _).2 _ hm⟩

/-- A concrete configuration for witnesses. -/
def cfgFix : AppConfig :=
  ⟨⟨"server.jar", "java", ["-Xmx2G"], ["nogui"], "./data/server"⟩,
    ⟨true, 2, 50⟩⟩

/-- C5: calling `start()` while the status is ONLINE or STARTING is a
no-op: whatever the spawn environment would do, the state (every field,
including crash counter, intentional-stop flag and process handle) is
returned unchanged and no effect — no spawn, no event — is produced. -/
theorem start_noop (cfg : AppConfig) (st : GState)
    (spawnRes : Except String ProcHandle)
    (h : st.status = GuardianStatus.ONLINE ∨
      st.status = GuardianStatus.STARTING) :
    start cfg st spawnRes = (st, []) := by
  unfold start
  rw [if_pos h]

/-- Witness for C5: `start` on a concrete ONLINE state changes nothing. -/
theorem start_noop_witness :
    start cfgFix (onlineState 1) (Except.ok okHandle) = (onlineState 1, []) :=
  start_noop cfgFix (onlineState 1) (Except.ok okHandle) (Or.inl rfl)

lemma write_fst (st : GState) (cmd : String) (r : Option String) :
    (write st cmd r).1 = st := by
  unfold write
  split
  · rfl
  · cases r <;> rfl

lemma write_not_online (st : GState) (cmd : String) (r : Option String)
    (h : st.status ≠ GuardianStatus.ONLINE) : write st cmd r = (st, []) := by
  unfold write
  rw [if_pos (Or.inl h)]

/-- C7: `write(command)` sends exactly `command ++ "\n"` to the process
stdin when the status is ONLINE and a stdin sink is present and the
underlying write succeeds; it is a pure no-op (no effects, state unchanged)
when the status is not ONLINE or no sink is available; and an underlying
write failure is converted into a single `error` event — `write` is a total
function, so nothing propagates to the caller. -/
theorem write_spec (st : GState) (cmd : String) :
    (∀ r, ¬(st.status = GuardianStatus.ONLINE ∧ procStdin st = true) →
      write st cmd r = (st, [])) ∧
    (st.status = GuardianStatus.ONLINE → procStdin st = true →
      write st cmd none = (st, [Effect.writeStdin (cmd ++ "\n")]) ∧
      ∀ e, write st cmd (some e) =
        (st, [Effect.emit (Ev.error ("Failed to write to stdin: " ++ e))])) := by
  constructor
  · intro r h
    unfold write
    rw [if_pos]
    rcases Decidable.not_and_iff_or_not.mp h with h1 | h1
    · exact Or.inl h1
    · exact Or.inr (by simpa using h1)
  · intro hs hstdin
    constructor
    · unfold write
      rw [if_neg (by simp [hs, hstdin])]
    · intro e
      unfold write
      rw [if_neg (by simp [hs, hstdin])]

/-- Witness for C7: on a concrete ONLINE state, a successful write forwards
`"say hi\n"`; with a closed pipe it is silent at OFFLINE and reports an
error event at ONLINE. -/
theorem write_spec_witness :
    write (onlineState 0) "say hi" none =
      (onlineState 0, [Effect.writeStdin ("say hi" ++ "\n")]) ∧
    write ⟨none, GuardianStatus.OFFLINE, 0, false, []⟩ "say hi" none =
      (⟨none, GuardianStatus.OFFLINE, 0, false, []⟩, []) ∧
    write (onlineState 0) "say hi" (some "EPIPE") =
      (onlineState 0,
        [Effect.emit (Ev.error ("Failed to write to stdin: " ++ "EPIPE"))]) :=
  ⟨((write_spec (onlineState 0) "say hi").2 rfl rfl).1,
    (write_spec ⟨none, GuardianStatus.OFFLINE, 0, false, []⟩ "say hi").1 none
      (by simp),
    ((write_spec (onlineState 0) "say hi").2 rfl rfl).2 "EPIPE"⟩

/-- C6: for `stop()` on a running process (status not OFFLINE, live handle):
if the exit future resolves before the 10000 ms shutdown deadline
(`exitWinsRace`), no forced kill happens and no hung-server log is emitted;
if the timer wins, the forced-termination log is emitted and `kill()` fires
a `SIGKILL` at the process; `stop` is a total function, so it resolves
normally on both paths. -/
theorem stop_race_spec (st : GState) (t : Option Nat) (p : ProcHandle)
    (hp : st.process = some p) (hs : st.status ≠ GuardianStatus.OFFLINE)
    (hk : p.killed = false) :
    (exitWinsRace t = true →
      Effect.killProc ∉ (stop st t).2 ∧
      Effect.emit (Ev.log "Server hung, forcing kill (SIGKILL)...")
        ∉ (stop st t).2) ∧
    (exitWinsRace t = false →
      Effect.emit (Ev.log "Server hung, forcing kill (SIGKILL)...")
        ∈ (stop st t).2 ∧
      Effect.killProc ∈ (stop st t).2) := by
  have hguard : ¬(st.status = GuardianStatus.OFFLINE ∨ st.process = none) := by
    rintro (h | h)
    · exact hs h
    · rw [hp] at h
      cases h
  have hw : write (setStatus { st with intentionalStop := true }
      GuardianStatus.STOPPING).1 "stop" none =
      ((setStatus { st with intentionalStop := true }
        GuardianStatus.STOPPING).1, []) :=
    write_not_online _ _ _ (by rw [setStatus_fst_status]; simp)
  have hkill : kill (setStatus { st with intentionalStop := true }
      GuardianStatus.STOPPING).1 =
      ((setStatus { st with intentionalStop := true }
        GuardianStatus.STOPPING).1, [Effect.killProc]) := by
    unfold kill
    have hpr : (setStatus { st with intentionalStop := true }
        GuardianStatus.STOPPING).1.process = some p := by
      rw [setStatus_fst_process]
      exact hp
    rw [hpr]
    simp [hk]
  constructor
  · intro hwin
    unfold stop
    rw [if_neg hguard, if_pos hwin, hw]
    rcases setStatus_snd ({ st with intentionalStop := true } : GState)
      GuardianStatus.STOPPING with h | h <;> simp [h]
  · intro hlose
    unfold stop
    rw [if_neg hguard, if_neg (by simp [hlose]), hw, hkill]
    rcases setStatus_snd ({ st with intentionalStop := true } : GState)
      GuardianStatus.STOPPING with h | h <;> simp [h]

/-- Witness for C6: concretely, an exit after 200 ms avoids the kill; a
process that never exits gets the hung log and the kill. -/
theorem stop_race_spec_witness :
    (Effect.killProc ∉ (stop (onlineState 0) (some 200)).2) ∧
    (Effect.killProc ∈ (stop (onlineState 0) none).2) :=
  ⟨((stop_race_spec (onlineState 0) (some 200) okHandle rfl (by simp
      [onlineState]) rfl).1 (by decide)).1,
    ((stop_race_spec (onlineState 0) none okHandle rfl (by simp
      [onlineState]) rfl).2 rfl).2⟩

/-- A state with a plugin named `"A"` already registered. -/
def dupSt : GState := ⟨none, GuardianStatus.OFFLINE, 0, false, ["A"]⟩

/-- A second plugin carrying the already-registered name `"A"`. -/
def dupPl : Plugin := ⟨"A", "2.0.0"⟩

/-- Counterexample to C9 as stated: registering a duplicate name is
rejected, but no `error` event is emitted — the code only calls
`console.warn`; the effect list of the rejected call is exactly one console
warning. -/
theorem use_duplicate_no_error_event :
    "A" ∈ dupSt.plugins ∧
    countErrors (use dupSt dupPl none).2 = 0 ∧
    (use dupSt dupPl none).2 =
      [Effect.consoleWarn ("Plugin " ++ "A" ++ " ya está registrado.")] ∧
    (use dupSt dupPl none).1 = dupSt := by
  refine ⟨by simp [dupSt], ?_, ?_, ?_⟩ <;> rfl

/-- C9 (amended): a second registration under an existing name is rejected
with a console warning — not an `error` event — `onLoad` of the duplicate is
not invoked and the registry is unchanged, so the first plugin remains
active; under a fresh name `onLoad(supervisor)` is invoked synchronously
and, when it returns normally, the plugin is added (a throwing `onLoad`
yields an `error` event and no registration). -/
theorem use_spec (st : GState) (p : Plugin) :
    (∀ r, p.name ∈ st.plugins →
      use st p r =
        (st, [Effect.consoleWarn ("Plugin " ++ p.name ++ " ya está registrado.")])) ∧
    (p.name ∉ st.plugins →
      use st p none =
        ({ st with plugins := st.plugins ++ [p.name] },
          [Effect.pluginOnLoad p.name,
            Effect.emit (Ev.log ("Plugin loaded: " ++ p.name ++ " v" ++ p.version))]) ∧
      ∀ e, use st p (some e) =
        (st, [Effect.pluginOnLoad p.name,
          Effect.emit (Ev.error ("Error loading plugin " ++ p.name ++ ": " ++ e))])) := by
  constructor
  · intro r h
    unfold use
    rw [if_pos h]
  · intro h
    constructor
    · unfold use
      rw [if_neg h]
    · intro e
      unfold use
      rw [if_neg h]

/-- Witness for C9 (amended): the duplicate branch on a concrete registry
with `"A"` present, and the success branch on an empty registry. -/
theorem use_spec_witness :
    use dupSt dupPl none =
      (dupSt, [Effect.consoleWarn ("Plugin " ++ "A" ++ " ya está registrado.")]) ∧
    use ⟨none, GuardianStatus.OFFLINE, 0, false, []⟩ dupPl none =
      (⟨none, GuardianStatus.OFFLINE, 0, false, ["A"]⟩,
        [Effect.pluginOnLoad "A",
          Effect.emit (Ev.log ("Plugin loaded: " ++ "A" ++ " v" ++ "2.0.0"))]) := by
  constructor
  · exact (use_spec dupSt dupPl).1 none (by simp [dupSt, dupPl])
  · have h := ((use_spec ⟨none, GuardianStatus.OFFLINE, 0, false, []⟩ dupPl).2
      (by simp [dupPl])).1
    simpa [dupPl] using h

/-- Whether an effect list contains a scheduled restart. -/
def restartScheduled (es : List Effect) : Bool :=
  es.any fun e =>
    match e with
    | Effect.scheduleStart _ => true
    | _ => false

@[simp] lemma countRestarts_nil : countRestarts [] = 0 := rfl

@[simp] lemma countErrors_nil : countErrors [] = 0 := rfl

@[simp] lemma countRestarts_append (a b : List Effect) :
    countRestarts (a ++ b) = countRestarts a + countRestarts b :=
  List.countP_append _ _ _

@[simp] lemma countErrors_append (a b : List Effect) :
    countErrors (a ++ b) = countErrors a + countErrors b :=
  List.countP_append _ _ _

/-- One life cycle of a supervised process that always crashes with exit
code 1: the termination is classified by `handleExit`; when that scheduled a
restart (`setTimeout(() => this.start(), delay)`), the delayed `start()`
fires and the spawn succeeds — only to crash again at the next cycle. -/
def crashCycle (cfg : AppConfig) (st : GState) : GState × List Effect :=
  if restartScheduled (handleExit cfg.guardian st (some 1)).2 then
    ((start cfg (handleExit cfg.guardian st (some 1)).1 (Except.ok okHandle)).1,
      (handleExit cfg.guardian st (some 1)).2 ++
        (start cfg (handleExit cfg.guardian st (some 1)).1
          (Except.ok okHandle)).2)
  else handleExit cfg.guardian st (some 1)

/-- `k` consecutive crash cycles, accumulating all effects. -/
def crashRun (cfg : AppConfig) (st : GState) : Nat → GState × List Effect
  | 0 => (st, [])
  | n + 1 =>
    ((crashCycle cfg (crashRun cfg st n).1).1,
      (crashRun cfg st n).2 ++ (crashCycle cfg (crashRun cfg st n).1).2)

/-- The terminal state after the retry budget is exhausted. -/
def deadState (n : Nat) : GState :=
  ⟨none, GuardianStatus.OFFLINE, n, false, []⟩

lemma crashCycle_live (srv : ServerConfig) (N d k : Nat) (h : k < N) :
    (crashCycle ⟨srv, ⟨true, N, d⟩⟩ (onlineState k)).1 = onlineState (k + 1) ∧
    countRestarts (crashCycle ⟨srv, ⟨true, N, d⟩⟩ (onlineState k)).2 = 1 ∧
    countErrors (crashCycle ⟨srv, ⟨true, N, d⟩⟩ (onlineState k)).2 = 0 := by
  refine ⟨?_, ?_, ?_⟩ <;>
    simp [crashCycle, handleExit, handleCrashRecovery, setStatus, start,
      onlineState, okHandle, restartScheduled, countRestarts, countErrors, h]

lemma crashCycle_exhaust (srv : ServerConfig) (N d : Nat) :
    (crashCycle ⟨srv, ⟨true, N, d⟩⟩ (onlineState N)).1 = deadState N ∧
    countRestarts (crashCycle ⟨srv, ⟨true, N, d⟩⟩ (onlineState N)).2 = 0 ∧
    countErrors (crashCycle ⟨srv, ⟨true, N, d⟩⟩ (onlineState N)).2 = 1 := by
  refine ⟨?_, ?_, ?_⟩ <;>
    simp [crashCycle, handleExit, handleCrashRecovery, setStatus,
      onlineState, okHandle, deadState, restartScheduled, countRestarts,
      countErrors]

lemma crashCycle_dead (cfg : AppConfig) (n : Nat) :
    crashCycle cfg (deadState n) = (deadState n, []) := by
  simp [crashCycle, handleExit, deadState, restartScheduled]

lemma crashRun_aux (srv : ServerConfig) (N d k : Nat) :
    (crashRun ⟨srv, ⟨true, N, d⟩⟩ (onlineState 0) k).1 =
      (if k ≤ N then onlineState k else deadState N) ∧
    countRestarts (crashRun ⟨srv, ⟨true, N, d⟩⟩ (onlineState 0) k).2 =
      min k N ∧
    countErrors (crashRun ⟨srv, ⟨true, N, d⟩⟩ (onlineState 0) k).2 =
      (if N < k then 1 else 0) := by
  induction k with
  | zero =>
    refine ⟨?_, ?_, ?_⟩
    · rw [if_pos (Nat.zero_le N)]
      rfl
    · simp [crashRun]
    · rw [if_neg (Nat.not_lt_zero N)]
      rfl
  | succ k ih =>
    obtain ⟨ih1, ih2, ih3⟩ := ih
    by_cases h1 : k + 1 ≤ N
    · have hk : k ≤ N := Nat.le_of_succ_le h1
      have hklt : k < N := h1
      obtain ⟨c1, c2, c3⟩ := crashCycle_live srv N d k hklt
      rw [if_pos hk] at ih1
      refine ⟨?_, ?_, ?_⟩
      · show (crashCycle _ (crashRun _ _ k).1).1 = _
        rw [ih1, c1, if_pos h1]
      · show countRestarts ((crashRun _ _ k).2 ++ _) = _
        rw [countRestarts_append, ih2, ih1, c2]
        omega
      · show countErrors ((crashRun _ _ k).2 ++ _) = _
        rw [countErrors_append, ih3, ih1, c3, if_neg (by omega),
          if_neg (by omega)]
    · by_cases h2 : k ≤ N
      · have hkN : k = N := by omega
        subst hkN
        rw [if_pos h2] at ih1
        obtain ⟨c1, c2, c3⟩ := crashCycle_exhaust srv k d
        refine ⟨?_, ?_, ?_⟩
        · show (crashCycle _ (crashRun _ _ k).1).1 = _
          rw [ih1, c1, if_neg h1]
        · show countRestarts ((crashRun _ _ k).2 ++ _) = _
          rw [countRestarts_append, ih2, ih1, c2]
          omega
        · show countErrors ((crashRun _ _ k).2 ++ _) = _
          rw [countErrors_append, ih3, ih1, c3, if_neg (by omega),
            if_pos (by omega)]
      · rw [if_neg h2] at ih1
        refine ⟨?_, ?_, ?_⟩
        · show (crashCycle _ (crashRun _ _ k).1).1 = _
          rw [ih1, crashCycle_dead, if_neg (by omega)]
        · show countRestarts ((crashRun _ _ k).2 ++ _) = _
          rw [countRestarts_append, ih2, ih1, crashCycle_dead]
          simp
          omega
        · show countErrors ((crashRun _ _ k).2 ++ _) = _
          rw [countErrors_append, ih3, ih1, crashCycle_dead,
            if_pos (by omega), if_pos (by omega)]
          rfl

/-- C2: with `autoRestart = true` and `maxRetries = N`, a process that
always crashes (exit code 1) accumulates, over any number `k` of consecutive
crash classifications from a fresh ONLINE run, exactly `min k N` scheduled
restarts — so after the `N`-th crash no further restart is ever scheduled —
and exactly one `error` event, emitted once the budget is exhausted
(`k > N`); in particular with `N = 2`, `k = 3` gives exactly two scheduled
restarts, no third, and the final error. -/
theorem crashRun_restart_budget (srv : ServerConfig) (N d k : Nat) :
    countRestarts (crashRun ⟨srv, ⟨true, N, d⟩⟩ (onlineState 0) k).2 =
      min k N ∧
    countErrors (crashRun ⟨srv, ⟨true, N, d⟩⟩ (onlineState 0) k).2 =
      (if N < k then 1 else 0) :=
  ⟨(crashRun_aux srv N d k).2.1, (crashRun_aux srv N d k).2.2⟩

/-- A transition of the supervisor: any public operation (`start`, `stop`,
`write`, `kill`, `use`) with any environment inputs, or the handling of a
process termination with any exit code. -/
inductive GStep (cfg : AppConfig) : GState → GState → Prop
  | startStep (st : GState) (r : Except String ProcHandle) :
      GStep cfg st (start cfg st r).1
  | stopStep (st : GState) (t : Option Nat) : GStep cfg st (stop st t).1
  | writeStep (st : GState) (c : String) (r : Option String) :
      GStep cfg st (write st c r).1
  | killStep (st : GState) : GStep cfg st (kill st).1
  | useStep (st : GState) (p : Plugin) (r : Option String) :
      GStep cfg st (use st p r).1
  | exitStep (st : GState) (c : Option Int) :
      GStep cfg st (handleExit cfg.guardian st c).1

/-- The constructor-initialised state of a `Guardian` instance. -/
def initState : GState := ⟨none, GuardianStatus.OFFLINE, 0, false, []⟩

/-- States reachable from a fresh `Guardian` by any step sequence. -/
def Reachable (cfg : AppConfig) : GState → Prop :=
  Relation.ReflTransGen (GStep cfg) initState

lemma start_crashCount (cfg : AppConfig) (st : GState)
    (r : Except String ProcHandle) :
    (start cfg st r).1.crashCount = st.crashCount := by
  unfold start
  split
  · rfl
  · cases r <;> simp [setStatus_fst_crashCount]

lemma kill_fst (st : GState) : (kill st).1 = st := by
  unfold kill
  split
  · split <;> rfl
  · rfl

lemma stop_crashCount (st : GState) (t : Option Nat) :
    (stop st t).1.crashCount = st.crashCount := by
  unfold stop
  split
  · rfl
  · split <;> simp [write_fst, kill_fst, setStatus_fst_crashCount]

lemma use_crashCount (st : GState) (p : Plugin) (r : Option String) :
    (use st p r).1.crashCount = st.crashCount := by
  unfold use
  split
  · rfl
  · cases r <;> rfl

lemma handleCrashRecovery_le (cfg : GuardianConfig) (st : GState)
    (h : st.crashCount ≤ cfg.maxRetries) :
    (handleCrashRecovery cfg st).1.crashCount ≤ cfg.maxRetries := by
  unfold handleCrashRecovery
  split
  · next hcond => exact hcond.2
  · rw [setStatus_fst_crashCount]
    exact h

lemma handleExit_le (cfg : GuardianConfig) (st : GState) (code : Option Int)
    (h : st.crashCount ≤ cfg.maxRetries) :
    (handleExit cfg st code).1.crashCount ≤ cfg.maxRetries := by
  by_cases hg : st.status = GuardianStatus.OFFLINE ∧ st.process = none
  · unfold handleExit
    rw [if_pos hg]
    exact h
  · by_cases hstop : st.intentionalStop = true
    · simp only [handleExit, if_neg hg]
      simp [hstop]
    · by_cases hcode : code = some 0 ∨ code = some 130 ∨ code = some 143
      · simp only [handleExit, if_neg hg]
        rcases hcode with h1 | h1 | h1 <;> simp [h1, hstop]
      · have hc : (handleExit cfg st code).1 =
            (handleCrashRecovery cfg
              (setStatus { st with process := none }
                GuardianStatus.CRASHED).1).1 := by
          simp [handleExit, hg, hstop, hcode]
        rw [hc]
        apply handleCrashRecovery_le
        rw [setStatus_fst_crashCount]
        exact h

/-- C10: in every reachable supervisor state, `0 ≤ crashCount ≤ maxRetries`:
the counter starts at 0, `handleCrashRecovery` increments it only under the
guard `crashCount < maxRetries`, clean exits reset it to 0, and no public
operation (`start`, `stop`, `write`, `kill`, `use`) or exit-handling step
breaks the bound. -/
theorem reachable_crashCount_bounded (cfg : AppConfig) (st : GState)
    (h : Reachable cfg st) :
    0 ≤ st.crashCount ∧ st.crashCount ≤ cfg.guardian.maxRetries := by
  refine ⟨Nat.zero_le _, ?_⟩
  induction h with
  | refl => exact Nat.zero_le _
  | tail hr step ih =>
    cases step with
    | startStep r =>
      rw [start_crashCount]
      exact ih
    | stopStep t =>
      rw [stop_crashCount]
      exact ih
    | writeStep c r =>
      rw [write_fst]
      exact ih
    | killStep =>
      rw [kill_fst]
      exact ih
    | useStep p r =>
      rw [use_crashCount]
      exact ih
    | exitStep c => exact handleExit_le _ _ _ ih

/-- Witness for C10: the fresh state is reachable and satisfies the bound
under the fixture policy. -/
theorem reachable_crashCount_bounded_witness :
    0 ≤ initState.crashCount ∧
    initState.crashCount ≤ cfgFix.guardian.maxRetries :=
  reachable_crashCount_bounded cfgFix initState Relation.ReflTransGen.refl

end Guardian
